import Mathlib

/-
Shallow embedding of `src/heic_to_jpg_converter.js` (Kagenoki/heic-to-jpg-converter).

The script drives external tools (exiftool, ImageMagick, heif-convert, ffmpeg,
ffprobe); every external invocation is modelled by injecting its observable
outcome (exit code, captured output, post-condition of the filesystem) as an
explicit argument, while the script's own logic (argument handling, orientation
mapping, the conversion fallback chain, the byte scanner, the candidate prober,
the MP4 normalizer, and the per-file orchestration) is translated function by
function from the source.  JavaScript numbers are modelled as `ℚ` where a
non-integral value can be observed (the parsed exiftool orientation tag,
ffprobe frame counts and durations) and as `Int` for rotation tags, which the
tools report as integral degrees; JS `%` on integers is `Int.tmod` (sign of
the dividend).  Line numbers in comments refer to `src/heic_to_jpg_converter.js`.
-/

namespace HeicToJpg

/-- Result of `run(cmd, args)` (lines 78-89): exit code plus captured output.
A spawn error resolves with `code = -1`. -/
structure RunRes where
  code : Int
  stdout : String
  stderr : String
deriving DecidableEq, Repr

/-- Tool availability as produced by `detectTools()` (lines 71-76); each field
is whether `which` found the executable. -/
structure Tools where
  exiftool : Bool
  ffmpeg : Bool
  ffprobe : Bool
  magick : Bool
  convert : Bool
  heifConvert : Bool
deriving DecidableEq, Repr

/-- Line 74: `found.imagemagick = found.magick || found.convert || null`. -/
def Tools.imagemagick (t : Tools) : Bool := t.magick || t.convert

/-- JS `a || b` on strings: an empty string is falsy (used for
`res.stderr?.trim() || res.stdout?.trim()` in the failure diagnostics). -/
def orElseStr (a b : String) : String := if a = "" then b else a

/-- ASCII lower-casing of one character (model of the relevant fragment of JS
`toLowerCase`, which the script only ever applies to ASCII tool output). -/
def lowerChar (c : Char) : Char :=
  if 'A' ≤ c ∧ c ≤ 'Z' then Char.ofNat (c.toNat + 32) else c

/-- ASCII lower-casing of a string. -/
def lowerStr (s : String) : String := String.mk (s.data.map lowerChar)

/-- Substring containment on char lists, the semantics of a JS regex test for
a fixed literal pattern. -/
def listContainsSub (l sub : List Char) : Bool :=
  (List.range (l.length + 1)).any (fun i => sub.isPrefixOf (l.drop i))

/-- Substring containment on strings. -/
def strContainsSub (s sub : String) : Bool := listContainsSub s.data sub.data

/-- JS number that may be absent (`undefined`, falsy), present but not a
number (its `Number(...)` image is NaN), or a finite value. -/
inductive RotTag where
  | absent
  | nonNumeric
  | val (deg : Int)
deriving DecidableEq, Repr

-- ---------------- Orientation helpers (lines 94-148) -------------------

/-- Injected outcomes of the two tool queries made by
`getExifOrientationCode` (lines 97-122). `exifNum` is
`Number((res.stdout || '').trim())` of the exiftool run, `none` modelling NaN;
`ffJsonOk` is whether `JSON.parse` of the ffprobe output succeeded; `ffRot` is
`streams[0]?.tags?.rotate` of the parsed JSON. -/
structure OrientEnv where
  exifRun : RunRes
  exifNum : Option ℚ
  ffRun : RunRes
  ffJsonOk : Bool
  ffRot : RotTag
deriving DecidableEq, Repr

/-- Lines 99-105: the exiftool branch of `getExifOrientationCode`; yields the
parsed orientation tag when exiftool is available, exited 0, and the parsed
number `n` satisfies `Number.isFinite(n) && n >= 1 && n <= 8`. -/
def exifToolCode (t : Tools) (e : OrientEnv) : Option ℚ :=
  if t.exiftool then
    if e.exifRun.code = 0 then
      match e.exifNum with
      | some n => if 1 ≤ n ∧ n ≤ 8 then some n else none
      | none => none
    else none
  else none

/-- Lines 106-120: the ffprobe fallback branch. `rot` is
`Number(s?.tags?.rotate || 0)`; when finite, `r = ((rot % 360) + 360) % 360`
is mapped `0↦1, 90↦6, 180↦3, 270↦8`; any other value falls through. -/
def ffprobeRotCode (t : Tools) (e : OrientEnv) : Option ℚ :=
  if t.ffprobe then
    if e.ffRun.code = 0 ∧ e.ffJsonOk then
      let rot : Option Int :=
        match e.ffRot with
        | .absent => some 0
        | .nonNumeric => none
        | .val d => some d
      match rot with
      | some d =>
        let r := Int.tmod (Int.tmod d 360 + 360) 360
        if r = 0 then some 1
        else if r = 90 then some 6
        else if r = 180 then some 3
        else if r = 270 then some 8
        else none
      | none => none
    else none
  else none

/-- Lines 97-122: `getExifOrientationCode` — exiftool first, then the ffprobe
rotate tag, then the default `1`; the function never throws. -/
def getExifOrientationCode (t : Tools) (e : OrientEnv) : ℚ :=
  match exifToolCode t e with
  | some n => n
  | none =>
    match ffprobeRotCode t e with
    | some n => n
    | none => 1

/-- Lines 124-135: `imagemagickOpsForExif` — explicit geometric operation list
for each EXIF orientation code (JS `switch` with strict equality). -/
def imagemagickOpsForExif (code : ℚ) : List String :=
  if code = 2 then ["-flop"]
  else if code = 3 then ["-rotate", "180"]
  else if code = 4 then ["-flip"]
  else if code = 5 then ["-transpose"]
  else if code = 6 then ["-rotate", "90"]
  else if code = 7 then ["-transverse"]
  else if code = 8 then ["-rotate", "270"]
  else []

/-- Lines 137-148: `ffmpegFilterForExif` — equivalent ffmpeg filter expression,
`none` (JS `null`) for the identity code. -/
def ffmpegFilterForExif (code : ℚ) : Option String :=
  if code = 2 then some "hflip"
  else if code = 3 then some "hflip,vflip"
  else if code = 4 then some "vflip"
  else if code = 5 then some "transpose=1,hflip"
  else if code = 6 then some "transpose=1"
  else if code = 7 then some "transpose=2,hflip"
  else if code = 8 then some "transpose=2"
  else none

-- ------------------- Dimension validator (lines 150-167) ---------------

/-- Lines 162-167: `plausibleDimensions` — rejects zero/small dimensions and
the two decoder-thumbnail placeholder sizes. JS `!w` on a number is `w = 0`
here since the parsed dimensions are non-negative. -/
def plausibleDimensions (w h : Nat) : Bool :=
  if w = 0 || h = 0 then false
  else if w ≤ 64 || h ≤ 64 then false
  else if (w = 512 && h = 512) || (w = 320 && h = 240) then false
  else true

-- ---------------------- Metadata copying (lines 169-176) ---------------

/-- Outcome of `copyAllMetadata` (lines 170-176). -/
structure MetaResult where
  ok : Bool
  reason : String
deriving DecidableEq, Repr

/-- Lines 170-176: `copyAllMetadata` — not-ok when exiftool is missing or the
tag-copy invocation exits non-zero; ok otherwise.  The injected `res` is the
result of the exiftool tag-copy run. -/
def copyAllMetadata (exiftoolAvail : Bool) (res : RunRes) : MetaResult :=
  if !exiftoolAvail then ⟨false, "exiftool_missing"⟩
  else if res.code ≠ 0 then ⟨false, "exiftool_failed"⟩
  else ⟨true, ""⟩

/-- Line 91: `jpgPathFor` (POSIX `path.join`). -/
def jpgPathFor (outDir base : String) : String := outDir ++ "/" ++ base ++ ".jpg"

/-- Line 92: `mp4PathFor` (POSIX `path.join`). -/
def mp4PathFor (outDir base : String) : String := outDir ++ "/" ++ base ++ ".mp4"

-- ---------------- Still image conversion (lines 178-221) ---------------

/-- Injected outcomes of the (up to) three converter invocations inside
`convertStill`: for each strategy, the process result and whether the
destination file exists afterwards (`await exists(dstFile)`, line 57). -/
structure StillEnv where
  imRun : RunRes
  imExists : Bool
  heifRun : RunRes
  heifExists : Bool
  ffRun : RunRes
  ffExists : Bool
deriving DecidableEq, Repr

/-- Return value of `convertStill`: `ok` carries the destination path and the
strategy identifier (lines 192, 201, 215); `fail` carries the accumulated
per-strategy diagnostics (line 220). -/
inductive StillOutcome where
  | ok (path method : String)
  | fail (failures : List String)
deriving DecidableEq, Repr

/-- Line 193 diagnostic string. -/
def imFailureMsg (r : RunRes) : String :=
  "ImageMagick exit " ++ toString r.code ++ ": " ++ orElseStr r.stderr.trim r.stdout.trim

/-- Line 202 diagnostic string. -/
def heifFailureMsg (r : RunRes) : String :=
  "heif-convert exit " ++ toString r.code ++ ": " ++ orElseStr r.stderr.trim r.stdout.trim

/-- Line 216 diagnostic string. -/
def ffFailureMsg (r : RunRes) : String :=
  "ffmpeg frame extract exit " ++ toString r.code ++ ": " ++ orElseStr r.stderr.trim r.stdout.trim

/-- Lines 185-190: the ImageMagick argument vector.  Note that line 186 of the
source calls `imagemagickOpsForExif(3)` with the literal `3`; the call using
the resolved `exifCode` is commented out on line 185, so the resolved code is
not consulted by this strategy. -/
def imArgs (t : Tools) (srcFile dstFile : String) (quality : Nat) : List String :=
  let ops := imagemagickOpsForExif 3
  if t.magick then
    "convert" :: srcFile :: (ops ++ ["-quality", toString quality, dstFile])
  else
    srcFile :: (ops ++ ["-quality", toString quality, dstFile])

/-- Line 210: the ffmpeg quality-scale value.  The source computes
`Math.min(31, Math.max(2, Math.round(31 - (Math.min(100, Math.max(1, 95)) / 100) * 29)))`
with the literal `95` in the innermost clamp, so the requested `quality` never
enters the expression.  JS `Math.round x` is `⌊x + 1/2⌋`. -/
def ffQscale (_quality : Nat) : Int :=
  min 31 (max 2 ⌊(31 : ℚ) - ((min 100 (max 1 (95 : ℚ))) / 100) * 29 + 1 / 2⌋)

/-- Lines 209-213: the ffmpeg frame-extraction argument vector. -/
def ffFrameArgs (srcFile dstFile : String) (quality : Nat) (exifCode : ℚ) : List String :=
  let base := ["-hide_banner", "-y", "-noautorotate", "-i", srcFile, "-frames:v", "1"]
  let withVf :=
    match ffmpegFilterForExif exifCode with
    | some f => base ++ ["-vf", f]
    | none => base
  withVf ++ ["-qscale:v", toString (ffQscale quality), dstFile]

/-- Result of the `convertStill` model: the outcome plus the ordered list of
tool invocations actually performed (tool label with argument vector) — the
latter records which external processes the chain spawned via `run`. -/
structure StillResult where
  outcome : StillOutcome
  calls : List (String × List String)
deriving DecidableEq, Repr

/-- Lines 206-218: third strategy — ffmpeg single-frame extraction, attempted
only when ffmpeg is available; succeeds when the process exits 0 and the
destination exists; otherwise (line 220) the chain returns the aggregate
failure list. -/
def stillStep3 (t : Tools) (srcFile dstFile : String) (quality : Nat)
    (exifCode : ℚ) (env : StillEnv) (failures : List String)
    (calls : List (String × List String)) : StillResult :=
  if t.ffmpeg then
    let call := ("ffmpeg", ffFrameArgs srcFile dstFile quality exifCode)
    if env.ffRun.code = 0 ∧ env.ffExists then
      ⟨.ok dstFile "ffmpeg-frame", calls ++ [call]⟩
    else
      ⟨.fail (failures ++ [ffFailureMsg env.ffRun]), calls ++ [call]⟩
  else ⟨.fail failures, calls⟩

/-- Lines 197-204: second strategy — heif-convert with `[srcFile, dstFile]`. -/
def stillStep2 (t : Tools) (srcFile dstFile : String) (quality : Nat)
    (exifCode : ℚ) (env : StillEnv) (failures : List String)
    (calls : List (String × List String)) : StillResult :=
  if t.heifConvert then
    let call := ("heif-convert", [srcFile, dstFile])
    if env.heifRun.code = 0 ∧ env.heifExists then
      ⟨.ok dstFile "heif-convert", calls ++ [call]⟩
    else
      stillStep3 t srcFile dstFile quality exifCode env
        (failures ++ [heifFailureMsg env.heifRun]) (calls ++ [call])
  else stillStep3 t srcFile dstFile quality exifCode env failures calls

/-- Lines 179-221: `convertStill` — the ordered still-conversion fallback
chain.  Each strategy is attempted only when its backing tool is available;
a strategy succeeds exactly when its process exited 0 and the destination
file exists afterwards; the first success stops the chain; on total failure
all collected diagnostics are returned. -/
def convertStill (t : Tools) (srcFile dstFile : String) (quality : Nat)
    (exifCode : ℚ) (env : StillEnv) : StillResult :=
  if t.imagemagick then
    let call := ("imagemagick", imArgs t srcFile dstFile quality)
    if env.imRun.code = 0 ∧ env.imExists then
      ⟨.ok dstFile "imagemagick", [call]⟩
    else
      stillStep2 t srcFile dstFile quality exifCode env [imFailureMsg env.imRun] [call]
  else stillStep2 t srcFile dstFile quality exifCode env [] []

-- ------------- Embedded video detection (lines 223-271) ----------------

/-- Line 224: `bytesIndexAll` — every byte offset at which the needle occurs.
The JS loop restarts the search one byte past each hit, so it reports every
(also overlapping) occurrence, in ascending order. -/
def bytesIndexAll (buf needle : List Char) : List Nat :=
  (List.range buf.length).filter (fun j => needle.isPrefixOf (buf.drop j))

/-- Line 225: `readAscii` — the `len` bytes at `off` as a string, `null` when
the window runs past the end of the buffer. -/
def readAscii (buf : List Char) (off len : Nat) : Option String :=
  if off + len ≤ buf.length then some (String.mk ((buf.drop off).take len)) else none

/-- Line 226: `HEIF_LIKE_BRANDS` — the still-image family brand set. -/
def HEIF_LIKE_BRANDS : List String :=
  ["heic", "heix", "hevc", "hevx", "heim", "heis", "hevm", "hevs",
   "mif1", "msf1", "avif", "avis"]

/-- A container candidate (line 238): box start = marker offset − 4, the
marker offset itself, and the brand tag right after the marker (`none` when
reading it runs off the end of the buffer). -/
structure Candidate where
  start : Nat
  ftypIndex : Nat
  major : Option String
deriving DecidableEq, Repr

/-- Lines 236-238: the filtering applied to one `ftyp` occurrence at offset
`i`: drop it when the box start `i - 4` would be negative or zero (the outer
file's own primary header), and when the brand tag is in the still-image
family set; otherwise keep the candidate. -/
def candidateAt (buf : List Char) (i : Nat) : Option Candidate :=
  if i < 4 then none
  else if i - 4 = 0 then none
  else
    match readAscii buf (i + 4) 4 with
    | some m => if m ∈ HEIF_LIKE_BRANDS then none else some ⟨i - 4, i, some m⟩
    | none => some ⟨i - 4, i, none⟩

/-- Insertion step of a sort by decreasing `start`. -/
def insertDesc (c : Candidate) : List Candidate → List Candidate
  | [] => [c]
  | d :: ds => if d.start ≤ c.start then c :: d :: ds else d :: insertDesc c ds

/-- Line 240: `candidates.sort((a, b) => b.start - a.start)` — sort by
decreasing start offset.  The starts of distinct candidates are pairwise
distinct (one candidate per marker occurrence), so every comparison sort
yields the same descending list; an insertion sort realizes it here. -/
def sortByStartDesc (l : List Candidate) : List Candidate :=
  l.foldr insertDesc []

/-- Lines 231-240: the container scan — every `ftyp` occurrence, filtered by
`candidateAt` and ordered by decreasing candidate start offset. -/
def scanCandidates (buf : List Char) : List Candidate :=
  sortByStartDesc ((bytesIndexAll buf "ftyp".data).filterMap (candidateAt buf))

/-- JS number read from an ffprobe JSON field that arrives as a string
(`nb_frames`, `duration`): absent (or falsy), present but non-numeric (its
`Number(...)` image is NaN), or a finite value. -/
inductive JsNum where
  | absent
  | nonNumeric
  | val (q : ℚ)
deriving DecidableEq, Repr

/-- One stream object of a parsed ffprobe report — the fields the script
reads (lines 254-258, 275-277). -/
structure StreamInfo where
  codecType : String
  attachedPic : Bool
  width : Nat
  height : Nat
  nbFrames : JsNum
  durationTag : JsNum
  rotateTag : RotTag
  sideDataTypes : List String
deriving DecidableEq, Repr

/-- The format object of a parsed ffprobe report (lines 252, 257-258). -/
structure FormatInfo where
  formatName : String
  nbStreams : Nat
  durationTag : JsNum
deriving DecidableEq, Repr

/-- A parsed ffprobe report (`JSON.parse(probe.stdout)`). -/
structure ProbeReport where
  format : Option FormatInfo
  streams : List StreamInfo
deriving DecidableEq, Repr

/-- Lines 254-255: the first stream with `codec_type === 'video'` that is not
flagged as an attached picture. -/
def firstVideoNotAttached (j : ProbeReport) : Option StreamInfo :=
  (j.streams.filter (fun s => s.codecType == "video")).find? (fun s => !s.attachedPic)

/-- Line 257: `Number(firstV?.nb_frames || json.format?.nb_streams || 0)` —
`none` models NaN.  When the stream reports no frame count the format's
stream count is substituted; when that is absent too the value is 0. -/
def nbFramesValue (j : ProbeReport) : Option ℚ :=
  let fallback : ℚ := ((j.format.map (fun f => f.nbStreams)).getD 0 : Nat)
  match firstVideoNotAttached j with
  | some v =>
    match v.nbFrames with
    | .val q => some q
    | .nonNumeric => none
    | .absent => some fallback
  | none => some fallback

/-- Inner fallback of line 258: `firstV?.duration || 0`. -/
def durationStreamFallback (j : ProbeReport) : Option ℚ :=
  match firstVideoNotAttached j with
  | some v =>
    match v.durationTag with
    | .val q => some q
    | .nonNumeric => none
    | .absent => some 0
  | none => some 0

/-- Line 258: `Number(json.format?.duration || firstV?.duration || 0)` — the
format's duration is preferred; the stream's duration is only a fallback. -/
def durationValue (j : ProbeReport) : Option ℚ :=
  match j.format with
  | some f =>
    match f.durationTag with
    | .val q => some q
    | .nonNumeric => none
    | .absent => durationStreamFallback j
  | none => durationStreamFallback j

/-- Lines 252-264: the acceptance predicate applied to one parsed probe
report: container family name test (a regex substring test), a usable video
stream, plausible dimensions, and plausible motion. -/
def probeAccept (j : ProbeReport) : Bool :=
  let fmtName := lowerStr ((j.format.map (fun f => f.formatName)).getD "")
  let isContainerOk := strContainsSub fmtName "mp4" || strContainsSub fmtName "mov"
    || strContainsSub fmtName "3g2" || strContainsSub fmtName "3gp"
    || strContainsSub fmtName "mj2"
  let firstV := firstVideoNotAttached j
  let w := (firstV.map (fun s => s.width)).getD 0
  let h := (firstV.map (fun s => s.height)).getD 0
  let dimOk := decide (32 < w) && decide (32 < h)
  let motionOk :=
    (match nbFramesValue j with | some q => decide (5 < q) | none => false)
    || (match durationValue j with | some q => decide (mkRat 3 10 < q) | none => false)
  isContainerOk && firstV.isSome && dimOk && motionOk

/-- Injected outcome of probing one candidate slice: the ffprobe exit code
and, when its stdout parsed, the JSON report (`none` models unparsable or
empty output). -/
structure ProbeOut where
  code : Int
  report : Option ProbeReport
deriving DecidableEq, Repr

/-- Whether the loop body of lines 247-267 accepts a candidate under the
injected outcome `o`: the probe exited 0, its output parsed, and the parsed
report passes `probeAccept`. -/
def candidateAccepted (o : ProbeOut) : Bool :=
  decide (o.code = 0) && (match o.report with | some j => probeAccept j | none => false)

/-- Lines 243-270: the probing loop — candidates in the scanner's order;
the first acceptance returns that candidate with its report and stops;
rejected or unprobeable slices are discarded and the loop continues. -/
def probeLoop (probeOf : Nat → ProbeOut) : List Candidate → Option (Candidate × ProbeReport)
  | [] => none
  | c :: rest =>
    let o := probeOf c.start
    if o.code = 0 then
      match o.report with
      | some j => if probeAccept j then some (c, j) else probeLoop probeOf rest
      | none => probeLoop probeOf rest
    else probeLoop probeOf rest

/-- Outcome of `detectEmbeddedVideo`. -/
inductive DetectResult where
  | ok (c : Candidate) (report : ProbeReport)
  | fail (reason : String)
deriving DecidableEq, Repr

/-- Lines 228-271: `detectEmbeddedVideo` — requires ffprobe, scans the source
bytes, and probes the ordered candidates; `probeOf` injects the outcome of
probing the slice starting at a given offset. -/
def detectEmbeddedVideo (t : Tools) (buf : List Char) (probeOf : Nat → ProbeOut) :
    DetectResult :=
  if !t.ffprobe then .fail "ffprobe_missing"
  else
    let cands := scanCandidates buf
    if cands.isEmpty then .fail "no_candidates"
    else
      match probeLoop probeOf cands with
      | some (c, j) => .ok c j
      | none => .fail "no_valid_slice"

-- -------------------- MP4 normalization (lines 273-290) ----------------

/-- Outcome of `normalizeMp4`; `stderrTxt` is empty when absent. -/
inductive NormalizeResult where
  | ok (method : String)
  | fail (reason : String) (stderrTxt : String)
deriving DecidableEq, Repr

/-- Lines 275-276: the rotation value — `v` is the first video stream,
`tagRotate = Number(v?.tags?.rotate || 0)`, kept only when finite, reduced by
JS `%` (`Int.tmod`, sign of the dividend); otherwise `rotate` stays 0. -/
def nmRotate (j : ProbeReport) : Int :=
  let v := j.streams.find? (fun s => s.codecType == "video")
  let tagRotate : Option Int :=
    match v with
    | some s =>
      match s.rotateTag with
      | .absent => some 0
      | .nonNumeric => none
      | .val d => some d
    | none => some 0
  match tagRotate with
  | some d => Int.tmod d 360
  | none => 0

/-- Line 277: whether any side-data entry of the first video stream is a
display matrix (`/displaymatrix/i` tested on `side_data_type || ''`). -/
def nmHasDisplayMatrix (j : ProbeReport) : Bool :=
  match j.streams.find? (fun s => s.codecType == "video") with
  | some s => s.sideDataTypes.any (fun ty => strContainsSub (lowerStr ty) "displaymatrix")
  | none => false

/-- Lines 281-282: the re-encode filter from the fully normalized rotation
`r = ((rotate % 360) + 360) % 360`; the empty string is replaced by the
identity filter `'null'` at the use site (line 283). -/
def nmVf (rotate : Int) : String :=
  let r := Int.tmod (Int.tmod rotate 360 + 360) 360
  if r = 90 then "transpose=1"
  else if r = 270 then "transpose=2"
  else if r = 180 then "hflip,vflip"
  else ""

/-- Lines 278-286: the method and ffmpeg argument vector chosen by
`normalizeMp4`: re-encode when the rotation is non-zero or a display matrix
is present, otherwise a verbatim stream copy; both carry
`-movflags +faststart`. -/
def nmPlan (tmpPath outPath : String) (j : ProbeReport) : String × List String :=
  let rotate := nmRotate j
  let baseArgs := ["-hide_banner", "-y", "-i", tmpPath]
  if rotate ≠ 0 ∨ nmHasDisplayMatrix j then
    ("reencode", baseArgs ++ ["-vf", orElseStr (nmVf rotate) "null", "-c:v", "libx264",
      "-preset", "veryfast", "-crf", "20", "-c:a", "aac", "-b:a", "160k",
      "-movflags", "+faststart", outPath])
  else
    ("copy", baseArgs ++ ["-c", "copy", "-movflags", "+faststart", outPath])

/-- Lines 273-290: `normalizeMp4` — fails without ffmpeg, otherwise runs the
planned argument vector (result injected as `ffRun`) and reports the method.
The returned list is the argument vector of the invocation. -/
def normalizeMp4 (t : Tools) (tmpPath outPath : String) (j : ProbeReport)
    (ffRun : RunRes) : NormalizeResult × List String :=
  if !t.ffmpeg then (.fail "ffmpeg_missing" "", [])
  else
    let (method, args) := nmPlan tmpPath outPath j
    if ffRun.code ≠ 0 then (.fail "ffmpeg_failed" ffRun.stderr, args)
    else (.ok method, args)

-- ------------------- Per-file orchestration (lines 302-352) ------------

/-- Injected outcomes of the per-file sub-steps of `processOne`: the result
of the still-conversion chain (line 317), the parsed output dimensions
(line 321, 0×0 when unavailable), the exiftool tag-copy run (line 325), the
embedded-video detection result (line 330), and the MP4 normalization result
(line 334). -/
structure ProcEnv where
  conv : StillOutcome
  dimW : Nat
  dimH : Nat
  metaRun : RunRes
  det : DetectResult
  norm : NormalizeResult
deriving DecidableEq, Repr

/-- The per-file summary object (line 307). -/
structure Summary where
  file : String
  jpgOut : String
  mp4Out : String
  steps : List String
  errors : List String
deriving DecidableEq, Repr

/-- Lines 329-342: the motion-extraction block of `processOne`, reached only
when no exception aborted the try-block earlier; returns the steps and errors
it appends. -/
def motionBlock (t : Tools) (dryRun : Bool) (mp4Out : String) (env : ProcEnv) :
    List String × List String :=
  if t.ffprobe then
    match env.det with
    | .ok c _ =>
      let step1 := "motion: candidate@" ++ toString c.start ++ " brand=" ++ c.major.getD "unknown"
      if !dryRun then
        match env.norm with
        | .ok method => ([step1, "mp4: " ++ method ++ " → " ++ mp4Out], [])
        | .fail reason stderrTxt =>
          ([step1], ["mp4 normalize failed: " ++ orElseStr stderrTxt reason])
      else ([step1, "dry-run: skip mp4 normalize"], [])
    | .fail _ => (["motion: none"], [])
  else (["motion: disabled (ffprobe missing)"], [])

/-- Lines 302-352: `processOne` — the per-file orchestration.  The still path
runs first inside the try-block; a failed conversion chain (line 318) or an
implausible dimension check (line 323) records the error and throws, which
skips the rest of the try-block — including the entire motion block — and is
caught at line 346 (the catch only logs).  The Bool component records whether
control reached the motion block at line 329. -/
def processOne (t : Tools) (file outDir base : String) (dryRun : Bool) (env : ProcEnv) :
    Summary × Bool :=
  let jpgOut := jpgPathFor outDir base
  let mp4Out := mp4PathFor outDir base
  if dryRun then
    let (msteps, merrs) := motionBlock t dryRun mp4Out env
    (⟨file, jpgOut, mp4Out, "dry-run: skip still conversion" :: msteps, merrs⟩, true)
  else
    match env.conv with
    | .fail fs =>
      (⟨file, jpgOut, mp4Out, [],
        ["All still conversion paths failed: " ++ String.intercalate " | " fs]⟩, false)
    | .ok _ method =>
      let s1 := "still: " ++ method
      if !plausibleDimensions env.dimW env.dimH then
        (⟨file, jpgOut, mp4Out, [s1],
          ["implausible dimensions " ++ toString env.dimW ++ "x" ++ toString env.dimH]⟩, false)
      else
        let meta := copyAllMetadata t.exiftool env.metaRun
        let s2 := "metadata: " ++ (if meta.ok then "copied+Orientation=1" else "skipped/partial")
        let (msteps, merrs) := motionBlock t dryRun mp4Out env
        (⟨file, jpgOut, mp4Out, s1 :: s2 :: msteps, merrs⟩, true)

-- ----------------------- CLI and main loop (lines 34-55, 292-371) ------

/-- The parsed argument record (line 35 defaults). -/
structure Args where
  debug : Bool
  quality : Int
  recursive : Bool
  dryRun : Bool
  sourceDir : String
  outputDir : String
deriving DecidableEq, Repr

/-- Lines 37-49 of `parseArgs`: the scan over `argv` from index 2.
`numParse` injects JS `Number` on the `--quality` value (`none` for NaN);
a `--quality` with no following argument feeds `Number(undefined) = NaN` and
throws, matching the source. -/
def parseArgsLoop (numParse : String → Option ℚ) :
    List String → Args → List String → Except String (Args × List String)
  | [], a, rest => .ok (a, rest)
  | v :: tl, a, rest =>
    if v = "--debug" then parseArgsLoop numParse tl { a with debug := true } rest
    else if v = "--recursive" then parseArgsLoop numParse tl { a with recursive := true } rest
    else if v = "--dry-run" then parseArgsLoop numParse tl { a with dryRun := true } rest
    else if v = "--quality" then
      match tl with
      | q :: tl2 =>
        match numParse q with
        | some qv =>
          if qv < 1 ∨ qv > 100 then .error "--quality must be an integer 1–100"
          else parseArgsLoop numParse tl2 { a with quality := ⌊qv + 1 / 2⌋ } rest
        | none => .error "--quality must be an integer 1–100"
      | [] => .error "--quality must be an integer 1–100"
    else parseArgsLoop numParse tl a (rest ++ [v])

/-- Lines 34-55: `parseArgs` — flags and positional arguments; throws when
fewer than two positional arguments remain; `path.resolve` is modelled as the
identity on the already-absolute paths used here. -/
def parseArgs (numParse : String → Option ℚ) (argv : List String) : Except String Args :=
  match parseArgsLoop numParse (argv.drop 2) ⟨false, 95, false, false, "", ""⟩ [] with
  | .error e => .error e
  | .ok (a, rest) =>
    match rest with
    | r0 :: r1 :: _ => .ok { a with sourceDir := r0, outputDir := r1 }
    | _ => .error ("Usage: node heic-to-jpg-converter.js <sourceDir> <outputDir> " ++
        "[--quality <1-100>] [--debug] [--recursive] [--dry-run]")

/-- A directory tree entry as observed through `fs.readdir` with file types
(line 294). -/
inductive FsEntry where
  | file (name : String)
  | dir (name : String) (children : List FsEntry)

/-- String suffix test on the character level. -/
def endsWithStr (s suf : String) : Bool := suf.data.reverse.isPrefixOf s.data.reverse

/-- Line 298: the extension test `/\.(heic|heif)$/i`. -/
def isHeicName (n : String) : Bool :=
  endsWithStr (lowerStr n) ".heic" || endsWithStr (lowerStr n) ".heif"

/-- Lines 293-300: `iterateFiles` — yields, in directory order, the full
paths of entries matching the HEIC/HEIF extension test, descending into a
subdirectory only when `recursive` is set (the subdirectory entry itself is
never yielded). -/
def iterateFiles (root : String) (recursive : Bool) : List FsEntry → List String
  | [] => []
  | .file n :: rest =>
    (if isHeicName n then [root ++ "/" ++ n] else []) ++ iterateFiles root recursive rest
  | .dir n children :: rest =>
    (if recursive then iterateFiles (root ++ "/" ++ n) recursive children else [])
      ++ iterateFiles root recursive rest

/-- Line 364: the batch loop of `main` enumerates
`iterateFiles(sourceDir, { recursive: false })` — the literal `false` is
hard-coded; `args.recursive` is never consulted after parsing. -/
def mainProcessedFiles (args : Args) (tree : List FsEntry) : List String :=
  iterateFiles args.sourceDir false tree

-- ======================= Helper lemmas =================================

/-- The four-byte marker occurs at offset `i` of the buffer. -/
def markerAt (buf : List Char) (i : Nat) : Prop :=
  "ftyp".data.isPrefixOf (buf.drop i) = true

theorem mem_bytesIndexAll {buf needle : List Char} {j : Nat} (hne : needle ≠ []) :
    j ∈ bytesIndexAll buf needle ↔ needle.isPrefixOf (buf.drop j) = true := by
  unfold bytesIndexAll
  simp only [List.mem_filter, List.mem_range]
  constructor
  · rintro ⟨_, h⟩; exact h
  · intro h
    refine ⟨?_, h⟩
    by_contra hlt
    push_neg at hlt
    rw [List.drop_eq_nil_of_le hlt] at h
    cases needle with
    | nil => exact hne rfl
    | cons a as => simp [List.isPrefixOf] at h

theorem mem_insertDesc {c d : Candidate} {l : List Candidate} :
    d ∈ insertDesc c l ↔ d = c ∨ d ∈ l := by
  induction l with
  | nil => simp [insertDesc]
  | cons e es ih =>
    simp only [insertDesc]
    split
    · simp [List.mem_cons]
    · simp only [List.mem_cons, ih]
      tauto

theorem pairwise_insertDesc {c : Candidate} {l : List Candidate}
    (h : l.Pairwise (fun a b => b.start ≤ a.start)) :
    (insertDesc c l).Pairwise (fun a b => b.start ≤ a.start) := by
  induction l with
  | nil => simp [insertDesc]
  | cons e es ih =>
    rw [List.pairwise_cons] at h
    obtain ⟨he, hes⟩ := h
    simp only [insertDesc]
    split
    · rename_i hle
      refine List.pairwise_cons.mpr ⟨?_, List.pairwise_cons.mpr ⟨he, hes⟩⟩
      intro x hx
      rcases List.mem_cons.mp hx with rfl | hx'
      · exact hle
      · exact le_trans (he x hx') hle
    · rename_i hlt
      push_neg at hlt
      refine List.pairwise_cons.mpr ⟨?_, ih hes⟩
      intro x hx
      rcases mem_insertDesc.mp hx with rfl | hx'
      · exact le_of_lt hlt
      · exact he x hx'

theorem sortByStartDesc_cons (e : Candidate) (es : List Candidate) :
    sortByStartDesc (e :: es) = insertDesc e (sortByStartDesc es) := rfl

theorem mem_sortByStartDesc {d : Candidate} {l : List Candidate} :
    d ∈ sortByStartDesc l ↔ d ∈ l := by
  induction l with
  | nil => simp [sortByStartDesc]
  | cons e es ih =>
    rw [sortByStartDesc_cons, mem_insertDesc, ih, List.mem_cons]

theorem pairwise_sortByStartDesc (l : List Candidate) :
    (sortByStartDesc l).Pairwise (fun a b => b.start ≤ a.start) := by
  induction l with
  | nil => simp [sortByStartDesc]
  | cons e es ih =>
    rw [sortByStartDesc_cons]
    exact pairwise_insertDesc ih

theorem candidateAt_eq_some_iff {buf : List Char} {i : Nat} {c : Candidate} :
    candidateAt buf i = some c ↔
      4 < i ∧ c.start = i - 4 ∧ c.ftypIndex = i ∧
      c.major = readAscii buf (i + 4) 4 ∧
      (∀ m, readAscii buf (i + 4) 4 = some m → m ∉ HEIF_LIKE_BRANDS) := by
  unfold candidateAt
  split
  · rename_i hi
    constructor
    · intro h; cases h
    · rintro ⟨h4, -⟩; omega
  · rename_i hi
    split
    · rename_i hz
      constructor
      · intro h; cases h
      · rintro ⟨h4, -⟩; omega
    · rename_i hz
      have h4 : 4 < i := by omega
      cases hra : readAscii buf (i + 4) 4 with
      | some m =>
        by_cases hm : m ∈ HEIF_LIKE_BRANDS
        · simp only [hra, hm, if_true]
          constructor
          · intro h; cases h
          · rintro ⟨-, -, -, -, hbr⟩
            exact absurd hm (hbr m rfl)
        · simp only [hra, hm, if_false]
          constructor
          · rintro h
            injection h with h
            subst h
            exact ⟨h4, rfl, rfl, rfl, fun m' hm' => by
              injection hm' with hm''
              subst hm''
              exact hm⟩
          · rintro ⟨-, hs, hf, hmaj, -⟩
            cases c
            simp_all
      | none =>
        simp only [hra]
        constructor
        · rintro h
          injection h with h
          subst h
          exact ⟨h4, rfl, rfl, rfl, fun m' hm' => by cases hm'⟩
        · rintro ⟨-, hs, hf, hmaj, -⟩
          cases c
          simp_all

theorem mem_scanCandidates {buf : List Char} {c : Candidate} :
    c ∈ scanCandidates buf ↔
      markerAt buf c.ftypIndex ∧ 0 < c.start ∧ c.start = c.ftypIndex - 4 ∧
      c.major = readAscii buf (c.ftypIndex + 4) 4 ∧
      (∀ m, c.major = some m → m ∉ HEIF_LIKE_BRANDS) := by
  unfold scanCandidates
  rw [mem_sortByStartDesc, List.mem_filterMap]
  constructor
  · rintro ⟨i, hi, hc⟩
    obtain ⟨h4, hs, hf, hmaj, hbr⟩ := candidateAt_eq_some_iff.mp hc
    subst hf
    have hm := (mem_bytesIndexAll (by decide)).mp hi
    refine ⟨hm, by omega, hs, hmaj, ?_⟩
    intro m hm'
    exact hbr m (hmaj.symm.trans hm')
  · rintro ⟨hm, hpos, hs, hmaj, hbr⟩
    refine ⟨c.ftypIndex, (mem_bytesIndexAll (by decide)).mpr hm, ?_⟩
    refine candidateAt_eq_some_iff.mpr ⟨by omega, hs, rfl, hmaj, ?_⟩
    intro m hm'
    exact hbr m (hmaj.trans hm')

-- ======================= Claim C5 ======================================

/-- Claim C5: the Container Scanner returns exactly the candidates whose
start offset (4 bytes before a `ftyp` marker occurrence) is strictly
positive and whose brand tag immediately after the marker is not in the
still-image family set, ordered by decreasing start offset; and for a buffer
with a marker at offset 0 bearing a still-image brand and one later marker
with an mp4-like brand, exactly one candidate is returned, at the later
offset. -/
theorem C5_container_scan (buf : List Char) (c : Candidate) :
    (c ∈ scanCandidates buf ↔
      markerAt buf c.ftypIndex ∧ 0 < c.start ∧ c.start = c.ftypIndex - 4 ∧
      c.major = readAscii buf (c.ftypIndex + 4) 4 ∧
      (∀ m, c.major = some m → m ∉ HEIF_LIKE_BRANDS)) ∧
    (scanCandidates buf).Pairwise (fun a b => b.start ≤ a.start) ∧
    scanCandidates "ftypheic00000000AAAAftypmp42".data = [⟨16, 20, some "mp42"⟩] :=
  ⟨mem_scanCandidates, pairwise_sortByStartDesc _, by decide⟩

/-- Witness for C5 at a concrete buffer and candidate. -/
theorem C5_container_scan_witness :
    scanCandidates "ftypheic00000000AAAAftypmp42".data = [⟨16, 20, some "mp42"⟩] :=
  (C5_container_scan [] ⟨0, 0, none⟩).2.2

-- ======================= Claim C4 ======================================

/-- The Candidate Prober acceptance conditions exactly as the specification
words them (for comparison with `probeAccept`, which is the code's
predicate): container name matches one of the five family names; a video
stream not flagged as attached picture exists; that stream's width and
height both exceed 32; and either that stream's own reported frame count
exceeds 5 or the reported duration exceeds 0.3 seconds. -/
def specProbeConditions (j : ProbeReport) : Prop :=
  (∃ p ∈ ["mp4", "mov", "3g2", "3gp", "mj2"],
      strContainsSub (lowerStr ((j.format.map (fun f => f.formatName)).getD "")) p = true) ∧
  (∃ v, firstVideoNotAttached j = some v) ∧
  (∀ v, firstVideoNotAttached j = some v → 32 < v.width ∧ 32 < v.height) ∧
  ((∃ v q, firstVideoNotAttached j = some v ∧ v.nbFrames = .val q ∧ 5 < q) ∨
   (∃ q, durationValue j = some q ∧ mkRat 3 10 < q))

/-- The amended acceptance conditions: as `specProbeConditions`, but the
frame-count condition reads the value the code computes — the stream's
reported frame count, falling back to the container's reported stream count
when the stream reports none (`nbFramesValue`). -/
def specProbeConditionsAmended (j : ProbeReport) : Prop :=
  (∃ p ∈ ["mp4", "mov", "3g2", "3gp", "mj2"],
      strContainsSub (lowerStr ((j.format.map (fun f => f.formatName)).getD "")) p = true) ∧
  (∃ v, firstVideoNotAttached j = some v) ∧
  (∀ v, firstVideoNotAttached j = some v → 32 < v.width ∧ 32 < v.height) ∧
  ((∃ q, nbFramesValue j = some q ∧ 5 < q) ∨
   (∃ q, durationValue j = some q ∧ mkRat 3 10 < q))

theorem candidateAccepted_iff {o : ProbeOut} :
    candidateAccepted o = true ↔
      o.code = 0 ∧ ∃ j, o.report = some j ∧ probeAccept j = true := by
  unfold candidateAccepted
  rcases hrep : o.report with _ | j <;>
    simp [hrep, Bool.and_eq_true, decide_eq_true_iff]

theorem probeLoop_eq_find (probeOf : Nat → ProbeOut) (cs : List Candidate) :
    (probeLoop probeOf cs).map Prod.fst =
      cs.find? (fun c => candidateAccepted (probeOf c.start)) := by
  induction cs with
  | nil => rfl
  | cons c rest ih =>
    unfold probeLoop
    rcases hrep : (probeOf c.start).report with _ | j
    · by_cases hcode : (probeOf c.start).code = 0
      · have hacc : candidateAccepted (probeOf c.start) = false := by
          unfold candidateAccepted
          rw [hrep]
          simp
        simp [hcode, hrep, ih, List.find?, hacc]
      · have hacc : candidateAccepted (probeOf c.start) = false := by
          unfold candidateAccepted
          simp [hcode]
        simp [hcode, hrep, ih, List.find?, hacc]
    · by_cases hcode : (probeOf c.start).code = 0
      · by_cases hja : probeAccept j = true
        · have hacc : candidateAccepted (probeOf c.start) = true := by
            unfold candidateAccepted
            rw [hrep]
            simp [hcode, hja]
          simp [hcode, hrep, hja, List.find?, hacc]
        · have hacc : candidateAccepted (probeOf c.start) = false := by
            unfold candidateAccepted
            rw [hrep]
            simp [hja]
          simp [hcode, hrep, hja, ih, List.find?, hacc]
      · have hacc : candidateAccepted (probeOf c.start) = false := by
          unfold candidateAccepted
          simp [hcode]
        simp [hcode, hrep, ih, List.find?, hacc]

theorem probeLoop_sound (probeOf : Nat → ProbeOut) (cs : List Candidate)
    (c : Candidate) (rep : ProbeReport) (h : probeLoop probeOf cs = some (c, rep)) :
    (probeOf c.start).report = some rep ∧ (probeOf c.start).code = 0 ∧
      probeAccept rep = true := by
  induction cs with
  | nil => cases h
  | cons d rest ih =>
    unfold probeLoop at h
    by_cases hcode : (probeOf d.start).code = 0
    · rcases hrep : (probeOf d.start).report with _ | j
      · simp only [hcode, if_true, hrep] at h
        exact ih h
      · by_cases hja : probeAccept j = true
        · simp only [hcode, if_true, hrep, hja, Option.some.injEq, Prod.mk.injEq] at h
          obtain ⟨h1, h2⟩ := h
          subst h1
          subst h2
          exact ⟨hrep, hcode, hja⟩
        · simp only [hcode, if_true, hrep, hja, if_false] at h
          exact ih h
    · simp only [hcode, if_false] at h
      exact ih h

theorem probeAccept_iff_amended (j : ProbeReport) :
    probeAccept j = true ↔ specProbeConditionsAmended j := by
  unfold probeAccept specProbeConditionsAmended
  rcases hv : firstVideoNotAttached j with _ | v <;>
    rcases hnf : nbFramesValue j with _ | nq <;>
      rcases hd : durationValue j with _ | dq <;>
        simp [hv, hnf, hd, Bool.and_eq_true, Bool.or_eq_true, decide_eq_true_iff] <;>
          tauto

/-- Claim C4 fails as stated: a probed report with an mp4 container name, a
good 100×100 video stream that reports no frame count and no duration, but a
container stream count of 6, is accepted by the code (the `nb_frames`
fallback to `nb_streams` trips the frame-count test) although the
specification's four conditions do not hold for it. -/
theorem C4_counterexample :
    probeAccept ⟨some ⟨"mp4", 6, .absent⟩,
        [⟨"video", false, 100, 100, .absent, .absent, .absent, []⟩]⟩ = true ∧
    ¬ specProbeConditions ⟨some ⟨"mp4", 6, .absent⟩,
        [⟨"video", false, 100, 100, .absent, .absent, .absent, []⟩]⟩ := by
  constructor
  · decide
  · rintro ⟨-, -, -, h4⟩
    rcases h4 with ⟨v, q, hv, hnf, -⟩ | ⟨q, hd, hq⟩
    · have hv' : some (⟨"video", false, 100, 100, .absent, .absent, .absent, []⟩ : StreamInfo)
          = some v := hv
      injection hv' with hv''
      rw [← hv''] at hnf
      exact JsNum.noConfusion hnf
    · have hd' : some (0 : ℚ) = some q := hd
      injection hd' with hd''
      rw [← hd''] at hq
      exact absurd hq (by decide)

/-- Claim C4 (amended): the Candidate Prober accepts a parsed report exactly
when the four conditions hold, with the frame-count condition reading the
stream's reported frame count or — when the stream reports none — the
container's reported stream count (`nbFramesValue`); candidates are tried in
the scanner's order and the first acceptance stops the scan (the loop result
is `List.find?` of the acceptance test), and an accepted result always stems
from a zero-exit probe whose parsed report passes the acceptance
predicate. -/
theorem C4_prober_amended (j : ProbeReport) (probeOf : Nat → ProbeOut)
    (cs : List Candidate) :
    (probeAccept j = true ↔ specProbeConditionsAmended j) ∧
    ((probeLoop probeOf cs).map Prod.fst =
      cs.find? (fun c => candidateAccepted (probeOf c.start))) ∧
    (∀ c rep, probeLoop probeOf cs = some (c, rep) →
      (probeOf c.start).report = some rep ∧ (probeOf c.start).code = 0 ∧
        probeAccept rep = true) :=
  ⟨probeAccept_iff_amended j, probeLoop_eq_find probeOf cs,
    fun c rep h => probeLoop_sound probeOf cs c rep h⟩

/-- Witness for C4 (amended) at a concrete accepted report. -/
theorem C4_prober_amended_witness :
    specProbeConditionsAmended ⟨some ⟨"mov,mp4,m4a,3gp,3g2,mj2", 2, .absent⟩,
      [⟨"video", false, 1080, 1920, .val 30, .val 2, .absent, []⟩]⟩ :=
  (C4_prober_amended ⟨some ⟨"mov,mp4,m4a,3gp,3g2,mj2", 2, .absent⟩,
      [⟨"video", false, 1080, 1920, .val 30, .val 2, .absent, []⟩]⟩
    (fun _ => ⟨0, none⟩) []).1.mp (by decide)

-- ======================= Claim C3 ======================================

/-- The ImageMagick strategy was attempted and succeeded: tool available,
exit code 0, destination present afterwards. -/
abbrev imGood (t : Tools) (env : StillEnv) : Prop :=
  t.imagemagick = true ∧ env.imRun.code = 0 ∧ env.imExists = true

/-- The heif-convert strategy was attempted and succeeded. -/
abbrev heifGood (t : Tools) (env : StillEnv) : Prop :=
  t.heifConvert = true ∧ env.heifRun.code = 0 ∧ env.heifExists = true

/-- The ffmpeg frame-extraction strategy was attempted and succeeded. -/
abbrev ffGood (t : Tools) (env : StillEnv) : Prop :=
  t.ffmpeg = true ∧ env.ffRun.code = 0 ∧ env.ffExists = true

/-- Claim C3: the Still Conversion Chain returns success exactly when some
available strategy exited 0 with the destination present afterwards (a
non-zero exit with a stale file is never success); evaluation
short-circuits at the first successful strategy in chain order; and on total
failure the aggregate retains exactly the diagnostics of every attempted
strategy, in order. -/
theorem C3_still_chain (t : Tools) (src dst : String) (q : Nat) (code : ℚ)
    (env : StillEnv) :
    ((∃ m, (convertStill t src dst q code env).outcome = .ok dst m) ↔
      (imGood t env ∨ heifGood t env ∨ ffGood t env)) ∧
    (imGood t env →
      (convertStill t src dst q code env).outcome = .ok dst "imagemagick") ∧
    (¬ imGood t env → heifGood t env →
      (convertStill t src dst q code env).outcome = .ok dst "heif-convert") ∧
    (¬ imGood t env → ¬ heifGood t env → ffGood t env →
      (convertStill t src dst q code env).outcome = .ok dst "ffmpeg-frame") ∧
    (∀ fs, (convertStill t src dst q code env).outcome = .fail fs →
      fs = (if t.imagemagick then [imFailureMsg env.imRun] else [])
        ++ (if t.heifConvert then [heifFailureMsg env.heifRun] else [])
        ++ (if t.ffmpeg then [ffFailureMsg env.ffRun] else [])) := by
  by_cases him : t.imagemagick = true <;>
    by_cases himok : env.imRun.code = 0 ∧ env.imExists = true <;>
      by_cases hh : t.heifConvert = true <;>
        by_cases hhok : env.heifRun.code = 0 ∧ env.heifExists = true <;>
          by_cases hf : t.ffmpeg = true <;>
            by_cases hfok : env.ffRun.code = 0 ∧ env.ffExists = true <;>
              simp [convertStill, stillStep2, stillStep3, imGood, heifGood, ffGood,
                him, himok, hh, hhok, hf, hfok]

/-- Witness for C3: ImageMagick exits 1 (with a stale destination present)
and heif-convert fails, so the chain falls through to the successful ffmpeg
strategy. -/
theorem C3_still_chain_witness :
    (convertStill ⟨true, true, true, true, false, true⟩ "s" "d" 95 1
      ⟨⟨1, "", ""⟩, true, ⟨2, "", ""⟩, false, ⟨0, "", ""⟩, true⟩).outcome =
      .ok "d" "ffmpeg-frame" :=
  (C3_still_chain ⟨true, true, true, true, false, true⟩ "s" "d" 95 1
      ⟨⟨1, "", ""⟩, true, ⟨2, "", ""⟩, false, ⟨0, "", ""⟩, true⟩).2.2.2.1
    (by decide) (by decide) (by decide)

-- ======================= Claim C2 ======================================

theorem stillStep3_calls_head (t : Tools) (src dst : String) (q : Nat) (c : ℚ)
    (env : StillEnv) (failures : List String) (a : String × List String)
    (calls : List (String × List String)) :
    (stillStep3 t src dst q c env failures (a :: calls)).calls.head? = some a := by
  unfold stillStep3
  split
  · split <;> simp
  · simp

theorem stillStep2_calls_head (t : Tools) (src dst : String) (q : Nat) (c : ℚ)
    (env : StillEnv) (failures : List String) (a : String × List String)
    (calls : List (String × List String)) :
    (stillStep2 t src dst q c env failures (a :: calls)).calls.head? = some a := by
  unfold stillStep2
  split
  · split
    · simp
    · exact stillStep3_calls_head ..
  · exact stillStep3_calls_head ..

/-- Claim C2 is contradicted by the code (line 186): for every resolved
orientation code `c` the ImageMagick strategy is invoked with the operation
list of code 3 (`-rotate 180`), because the source hard-codes
`imagemagickOpsForExif(3)` (the call using `exifCode` is commented out on
line 185); the mapping the claim requires would give `-rotate 90` for
code 6. -/
theorem C2_im_strategy_ignores_orientation :
    ∀ (c : ℚ) (q : Nat) (src dst : String) (env : StillEnv),
      (convertStill ⟨true, true, true, true, false, true⟩ src dst q c env).calls.head? =
        some ("imagemagick",
          ["convert", src, "-rotate", "180", "-quality", toString q, dst]) ∧
      imagemagickOpsForExif 6 = ["-rotate", "90"] := by
  intro c q src dst env
  refine ⟨?_, by decide⟩
  unfold convertStill
  by_cases hok : env.imRun.code = 0 ∧ env.imExists = true
  · simp [hok, Tools.imagemagick, imArgs, imagemagickOpsForExif]
  · simp only [Tools.imagemagick, hok, if_false, if_true, Bool.or_self,
      show (true || false) = true from rfl]
    rw [stillStep2_calls_head]
    rfl

-- ======================= Claim C8 ======================================

/-- Claim C8 is contradicted by the code (line 210): the ffmpeg
frame-extraction strategy's quality argument is computed from the literal 95
instead of the requested quality, so the argument vector is identical for
every requested quality and the translated `-qscale:v` value is the
constant 3. -/
theorem C8_ff_quality_constant :
    ∀ (q1 q2 : Nat) (src dst : String) (c : ℚ),
      ffFrameArgs src dst q1 c = ffFrameArgs src dst q2 c ∧
      ffQscale q1 = 3 := by
  have h3 : ∀ q : Nat, ffQscale q = 3 := by
    intro q
    unfold ffQscale
    norm_num
  intro q1 q2 src dst c
  exact ⟨by unfold ffFrameArgs; rw [h3 q1, h3 q2], h3 q1⟩

-- ======================= Claim C6 ======================================

theorem neg_tmod_left (a b : Int) : (-a).tmod b = -(a.tmod b) := by
  rw [Int.tmod_def, Int.tmod_def, Int.neg_tdiv]
  ring

theorem tmod_tmod360 (d : Int) : (d.tmod 360).tmod 360 = d.tmod 360 := by
  rcases le_or_lt 0 d with hd | hd
  · exact Int.tmod_eq_of_lt (Int.tmod_nonneg 360 hd) (Int.tmod_lt_of_pos d (by norm_num))
  · have e := neg_tmod_left (-d) 360
    simp only [neg_neg] at e
    rw [e, neg_tmod_left]
    have h0 : 0 ≤ (-d).tmod 360 := Int.tmod_nonneg 360 (by omega)
    have h1 : (-d).tmod 360 < 360 := Int.tmod_lt_of_pos (-d) (by norm_num)
    rw [Int.tmod_eq_of_lt h0 h1]

/-- JS re-normalization `((x % 360) + 360) % 360` (truncated `%`) agrees with
the mathematical residue modulo 360. -/
theorem jsRotNorm (d : Int) : (d.tmod 360 + 360).tmod 360 = d % 360 := by
  have hub : d.tmod 360 < 360 := Int.tmod_lt_of_pos d (by norm_num)
  have hlb : -360 < d.tmod 360 := by
    rcases le_or_lt 0 d with hd | hd
    · have := Int.tmod_nonneg 360 hd
      omega
    · have e := neg_tmod_left (-d) 360
      simp only [neg_neg] at e
      have h1 : (-d).tmod 360 < 360 := Int.tmod_lt_of_pos (-d) (by norm_num)
      omega
  have houter : (d.tmod 360 + 360).tmod 360 = (d.tmod 360 + 360) % 360 :=
    Int.tmod_eq_emod (by omega) (by norm_num)
  have hdef := Int.tmod_def d 360
  rw [houter, hdef]
  omega

theorem tmod360_zero_iff (d : Int) : d.tmod 360 = 0 ↔ d % 360 = 0 := by
  constructor
  · intro h
    exact Int.emod_eq_zero_of_dvd (Int.dvd_of_tmod_eq_zero h)
  · intro h
    exact Int.tmod_eq_zero_of_dvd (Int.dvd_of_emod_eq_zero h)

/-- The first video stream's rotation tag, normalized modulo 360 into
`[0, 360)` (0 when the tag is absent or non-numeric, or when there is no
video stream) — the quantity the specification's re-encode decision and
filter mapping are phrased in. -/
def rotationNormalized (j : ProbeReport) : Int :=
  match j.streams.find? (fun s => s.codecType == "video") with
  | some s =>
    match s.rotateTag with
    | .val d => d % 360
    | _ => 0
  | none => 0

theorem nmVf_norm (d : Int) :
    orElseStr (nmVf (Int.tmod d 360)) "null" =
      (if d % 360 = 90 then "transpose=1"
       else if d % 360 = 270 then "transpose=2"
       else if d % 360 = 180 then "hflip,vflip" else "null") := by
  unfold nmVf
  rw [tmod_tmod360, jsRotNorm]
  by_cases h90 : d % 360 = 90
  · simp [h90, orElseStr]
  · by_cases h270 : d % 360 = 270
    · simp [h90, h270, orElseStr]
    · by_cases h180 : d % 360 = 180
      · simp [h90, h270, h180, orElseStr]
      · simp [h90, h270, h180, orElseStr]

theorem nmRotate_cases (j : ProbeReport) :
    (nmRotate j = 0 ∧ rotationNormalized j = 0) ∨
    (∃ d, nmRotate j = Int.tmod d 360 ∧ rotationNormalized j = d % 360) := by
  unfold nmRotate rotationNormalized
  rcases hv : j.streams.find? (fun s => s.codecType == "video") with _ | s
  · left
    simp [hv]
  · rcases hr : s.rotateTag with _ | _ | d
    · left
      simp [hv, hr]
    · left
      simp [hv, hr]
    · right
      exact ⟨d, by simp [hv, hr], by simp [hv, hr]⟩

theorem nmRotate_zero_iff (j : ProbeReport) :
    nmRotate j = 0 ↔ rotationNormalized j = 0 := by
  unfold nmRotate rotationNormalized
  rcases hv : j.streams.find? (fun s => s.codecType == "video") with _ | s
  · simp [hv]
  · rcases hr : s.rotateTag with _ | _ | d <;> simp [hv, hr, tmod360_zero_iff]

theorem nmPlan_eq (tmp out : String) (j : ProbeReport) :
    nmPlan tmp out j =
      if rotationNormalized j ≠ 0 ∨ nmHasDisplayMatrix j = true then
        ("reencode", ["-hide_banner", "-y", "-i", tmp, "-vf",
          (if rotationNormalized j = 90 then "transpose=1"
           else if rotationNormalized j = 270 then "transpose=2"
           else if rotationNormalized j = 180 then "hflip,vflip" else "null"),
          "-c:v", "libx264", "-preset", "veryfast", "-crf", "20", "-c:a", "aac",
          "-b:a", "160k", "-movflags", "+faststart", out])
      else
        ("copy", ["-hide_banner", "-y", "-i", tmp, "-c", "copy",
          "-movflags", "+faststart", out]) := by
  unfold nmPlan
  by_cases hz : nmRotate j = 0
  · have hz' : rotationNormalized j = 0 := (nmRotate_zero_iff j).mp hz
    by_cases hdm : nmHasDisplayMatrix j = true
    · simp only [hz, hz', hdm, ne_eq, not_true_eq_false, or_true, if_true,
        not_false_eq_true]
      have : orElseStr (nmVf 0) "null" = "null" := by norm_num [nmVf, orElseStr]
      simp [this, hz']
    · simp [hz, hz', hdm]
  · have hz' : ¬ rotationNormalized j = 0 := fun h => hz ((nmRotate_zero_iff j).mpr h)
    rcases nmRotate_cases j with ⟨h0, -⟩ | ⟨d, hrot, hnorm⟩
    · exact absurd h0 hz
    · simp only [hz, hz', ne_eq, not_false_eq_true, true_or, if_true, hrot, hnorm,
        nmVf_norm d]
      have hcl : ¬ d.tmod 360 = 0 := hrot ▸ hz
      have hcr : ¬ d % 360 = 0 := hnorm ▸ hz'
      rw [if_pos (Or.inl hcl), if_pos (Or.inl hcr)]
      simp

/-- Claim C6: the MP4 Normalizer re-encodes exactly when the first video
stream's rotation tag normalized modulo 360 is non-zero or a display-matrix
side-data entry is present, mapping 90 to one transpose filter, 270 to the
other, 180 to the horizontal-then-vertical mirror, and the identity filter
(`null`) to every other case; otherwise it remuxes with verbatim stream
copy; both argument vectors carry the fast-start flag, and with ffmpeg
available and a zero exit the reported method is the planned one. -/
theorem C6_mp4_normalizer (t : Tools) (tmp out : String) (j : ProbeReport)
    (ffRun : RunRes) :
    ((nmPlan tmp out j).1 = "reencode" ↔
      rotationNormalized j ≠ 0 ∨ nmHasDisplayMatrix j = true) ∧
    (rotationNormalized j = 0 → nmHasDisplayMatrix j = false →
      nmPlan tmp out j = ("copy", ["-hide_banner", "-y", "-i", tmp, "-c", "copy",
        "-movflags", "+faststart", out])) ∧
    (rotationNormalized j ≠ 0 ∨ nmHasDisplayMatrix j = true →
      (nmPlan tmp out j).2 = ["-hide_banner", "-y", "-i", tmp, "-vf",
        (if rotationNormalized j = 90 then "transpose=1"
         else if rotationNormalized j = 270 then "transpose=2"
         else if rotationNormalized j = 180 then "hflip,vflip" else "null"),
        "-c:v", "libx264", "-preset", "veryfast", "-crf", "20", "-c:a", "aac",
        "-b:a", "160k", "-movflags", "+faststart", out]) ∧
    "+faststart" ∈ (nmPlan tmp out j).2 ∧
    (t.ffmpeg = true → ffRun.code = 0 →
      (normalizeMp4 t tmp out j ffRun).1 = .ok (nmPlan tmp out j).1) := by
  rw [nmPlan_eq]
  by_cases hcond : rotationNormalized j ≠ 0 ∨ nmHasDisplayMatrix j = true
  · refine ⟨by simp [hcond], ?_, by simp [hcond], by simp [hcond], ?_⟩
    · intro h1 h2
      rcases hcond with hc | hc
      · exact absurd h1 hc
      · rw [h2] at hc
        cases hc
    · intro hff hcode
      unfold normalizeMp4
      rw [nmPlan_eq]
      simp [hff, hcond, hcode]
  · have h1 : rotationNormalized j = 0 := by
      by_contra h
      exact hcond (Or.inl h)
    have h2 : nmHasDisplayMatrix j = false := by
      rcases hdm : nmHasDisplayMatrix j with _ | _
      · rfl
      · exact absurd (Or.inr hdm) hcond
    refine ⟨by simp [hcond], fun _ _ => by simp [hcond], fun h => absurd h hcond,
      by simp [hcond], ?_⟩
    intro hff hcode
    unfold normalizeMp4
    rw [nmPlan_eq]
    simp [hff, hcond, hcode]

/-- Witness for C6: the spec's end-to-end scenario — a 1080×1920 video
stream with no rotation tag is remuxed with verbatim copy and the fast-start
flag. -/
theorem C6_mp4_normalizer_witness :
    nmPlan "t" "o" ⟨some ⟨"mov,mp4,m4a,3gp,3g2,mj2", 2, .absent⟩,
        [⟨"video", false, 1080, 1920, .val 30, .val 2, .absent, []⟩]⟩ =
      ("copy", ["-hide_banner", "-y", "-i", "t", "-c", "copy",
        "-movflags", "+faststart", "o"]) :=
  (C6_mp4_normalizer ⟨true, true, true, true, false, true⟩ "t" "o"
      ⟨some ⟨"mov,mp4,m4a,3gp,3g2,mj2", 2, .absent⟩,
        [⟨"video", false, 1080, 1920, .val 30, .val 2, .absent, []⟩]⟩
      ⟨0, "", ""⟩).2.1 (by decide) (by decide)

-- ======================= Claim C7 ======================================

/-- Claim C7 fails as stated: with exiftool available, exiting 0 and its
output parsing to the non-integral value 5/2, the resolver returns 5/2 —
the code checks `Number.isFinite(n) && n >= 1 && n <= 8` (line 103) but
never integrality, so the returned value is not an EXIF orientation code. -/
theorem C7_counterexample :
    getExifOrientationCode ⟨true, false, false, false, false, false⟩
        ⟨⟨0, "2.5", ""⟩, some (mkRat 5 2), ⟨0, "", ""⟩, false, .absent⟩ = mkRat 5 2 ∧
    (mkRat 5 2).den ≠ 1 := by
  decide

theorem exifToolCode_bound {t : Tools} {e : OrientEnv} {n : ℚ}
    (h : exifToolCode t e = some n) : 1 ≤ n ∧ n ≤ 8 := by
  unfold exifToolCode at h
  by_cases h1 : t.exiftool = true
  · by_cases h2 : e.exifRun.code = 0
    · rcases he : e.exifNum with _ | m
      · rw [he] at h
        simp [h1, h2] at h
      · rw [he] at h
        simp only [h1, h2, if_true] at h
        by_cases hb : 1 ≤ m ∧ m ≤ 8
        · rw [if_pos hb] at h
          injection h with h
          subst h
          exact hb
        · rw [if_neg hb] at h
          cases h
    · simp [h1, h2] at h
  · simp [h1] at h

theorem ffprobeRotCode_vals {t : Tools} {e : OrientEnv} {n : ℚ}
    (h : ffprobeRotCode t e = some n) : n = 1 ∨ n = 6 ∨ n = 3 ∨ n = 8 := by
  unfold ffprobeRotCode at h
  split at h
  · split at h
    · rcases hr : e.ffRot with _ | _ | d
      · rw [hr] at h
        simp at h
        tauto
      · rw [hr] at h
        exact Option.noConfusion h
      · rw [hr] at h
        simp only [jsRotNorm] at h
        split at h
        · injection h with h
          tauto
        · split at h
          · injection h with h
            tauto
          · split at h
            · injection h with h
              tauto
            · split at h
              · injection h with h
                tauto
              · cases h
    · cases h
  · cases h

/-- Claim C7 (amended): the Orientation Resolver is total, always yields a
value in the interval [1,8], and returns the metadata-reader's parsed tag n
exactly when that query succeeded with a finite value 1 ≤ n ≤ 8 — the code
does not require n to be an integer, which is the sole amendment; otherwise
it maps the ffprobe rotation normalized modulo 360 by 0↦1, 90↦6, 180↦3,
270↦8, and every remaining case (other degree values, any tool failure)
yields the default 1. -/
theorem C7_orientation_amended (t : Tools) (e : OrientEnv) :
    (1 ≤ getExifOrientationCode t e ∧ getExifOrientationCode t e ≤ 8) ∧
    (∀ n, exifToolCode t e = some n →
      getExifOrientationCode t e = n ∧ 1 ≤ n ∧ n ≤ 8) ∧
    (∀ n, ffprobeRotCode t e = some n → n = 1 ∨ n = 6 ∨ n = 3 ∨ n = 8) ∧
    (exifToolCode t e = none → ffprobeRotCode t e = none →
      getExifOrientationCode t e = 1) ∧
    (∀ d, exifToolCode t e = none → t.ffprobe = true → e.ffRun.code = 0 →
      e.ffJsonOk = true → e.ffRot = .val d →
      getExifOrientationCode t e =
        (if d % 360 = 0 then 1 else if d % 360 = 90 then 6
         else if d % 360 = 180 then 3 else if d % 360 = 270 then 8 else 1)) := by
  refine ⟨?_, ?_, fun n h => ffprobeRotCode_vals h, ?_, ?_⟩
  · unfold getExifOrientationCode
    rcases he : exifToolCode t e with _ | n
    · rcases hf : ffprobeRotCode t e with _ | n
      · norm_num
      · rcases ffprobeRotCode_vals hf with rfl | rfl | rfl | rfl <;> norm_num
    · have := exifToolCode_bound he
      exact this
  · intro n h
    refine ⟨?_, exifToolCode_bound h⟩
    unfold getExifOrientationCode
    rw [h]
  · intro h1 h2
    unfold getExifOrientationCode
    rw [h1, h2]
  · intro d hnone hffp hcode hjson hr
    unfold getExifOrientationCode
    rw [hnone]
    unfold ffprobeRotCode
    rw [hr]
    simp only [hffp, hcode, hjson, and_self, if_true, jsRotNorm]
    split_ifs <;> rfl

/-- Witness for C7 (amended): a 90-degree ffprobe rotation tag resolves to
orientation code 6. -/
theorem C7_orientation_amended_witness :
    getExifOrientationCode ⟨false, false, true, false, false, false⟩
      ⟨⟨0, "", ""⟩, none, ⟨0, "", ""⟩, true, .val 90⟩ = 6 := by
  rw [(C7_orientation_amended ⟨false, false, true, false, false, false⟩
      ⟨⟨0, "", ""⟩, none, ⟨0, "", ""⟩, true, .val 90⟩).2.2.2.2 90 rfl rfl rfl rfl rfl]
  decide

-- ======================= Claim C1 ======================================

/-- Claim C1 fails as stated: with every tool available and dry-run off, a
file whose still-conversion chain fails records the aggregate error, but the
thrown exception (line 318) skips the rest of the try-block, so the
motion-extraction block (line 329) is never reached for that file. -/
theorem C1_counterexample :
    (processOne ⟨true, true, true, true, false, true⟩ "f.heic" "/out" "f" false
        ⟨.fail ["boom"], 0, 0, ⟨0, "", ""⟩, .fail "no_candidates", .fail "x" ""⟩).2
      = false ∧
    (processOne ⟨true, true, true, true, false, true⟩ "f.heic" "/out" "f" false
        ⟨.fail ["boom"], 0, 0, ⟨0, "", ""⟩, .fail "no_candidates", .fail "x" ""⟩).1.errors
      = ["All still conversion paths failed: boom"] := by
  decide

/-- Claim C1 (amended): a still-path failure — an exhausted conversion chain
or a dimension-validator rejection — is recorded in the FileSummary's error
list, but the raised error aborts the per-file try-block, so the
motion-extraction block does not run for that file; the motion block runs
exactly when the still path completed, or in dry-run mode. -/
theorem C1_still_failure_skips_motion (t : Tools) (file outDir base : String)
    (env : ProcEnv) :
    (∀ fs, env.conv = .fail fs →
      (processOne t file outDir base false env).2 = false ∧
      (processOne t file outDir base false env).1.errors =
        ["All still conversion paths failed: " ++ String.intercalate " | " fs]) ∧
    (∀ p m, env.conv = .ok p m → plausibleDimensions env.dimW env.dimH = false →
      (processOne t file outDir base false env).2 = false ∧
      (processOne t file outDir base false env).1.errors =
        ["implausible dimensions " ++ toString env.dimW ++ "x" ++ toString env.dimH]) ∧
    (∀ p m, env.conv = .ok p m → plausibleDimensions env.dimW env.dimH = true →
      (processOne t file outDir base false env).2 = true) ∧
    (processOne t file outDir base true env).2 = true := by
  refine ⟨?_, ?_, ?_, ?_⟩
  · intro fs hc
    unfold processOne
    simp [hc]
  · intro p m hc hpl
    unfold processOne
    simp [hc, hpl]
  · intro p m hc hpl
    unfold processOne
    simp [hc, hpl]
  · unfold processOne
    simp

/-- Witness for C1 (amended): a successful still path reaches the motion
block. -/
theorem C1_still_failure_skips_motion_witness :
    (processOne ⟨true, true, true, true, false, true⟩ "f.heic" "/out" "f" false
        ⟨.ok "/out/f.jpg" "imagemagick", 4032, 3024, ⟨0, "", ""⟩,
          .fail "no_candidates", .fail "y" ""⟩).2 = true :=
  (C1_still_failure_skips_motion ⟨true, true, true, true, false, true⟩ "f.heic"
      "/out" "f"
      ⟨.ok "/out/f.jpg" "imagemagick", 4032, 3024, ⟨0, "", ""⟩,
        .fail "no_candidates", .fail "y" ""⟩).2.2.1
    "/out/f.jpg" "imagemagick" rfl (by decide)

-- ======================= Claim C9 ======================================

/-- Claim C9 fails as stated: a file whose metadata propagation returns
not-ok (here: the exiftool tag-copy run exits 1) records no error at all —
the orchestrator only appends the step `metadata: skipped/partial`
(line 326), so the file does not count toward files with a recorded
error. -/
theorem C9_counterexample :
    (processOne ⟨true, true, true, true, false, true⟩ "f.heic" "/out" "f" false
        ⟨.ok "/out/f.jpg" "imagemagick", 4032, 3024, ⟨1, "", "x"⟩,
          .fail "no_candidates", .fail "y" ""⟩).1.errors = [] ∧
    (processOne ⟨true, true, true, true, false, true⟩ "f.heic" "/out" "f" false
        ⟨.ok "/out/f.jpg" "imagemagick", 4032, 3024, ⟨1, "", "x"⟩,
          .fail "no_candidates", .fail "y" ""⟩).1.steps =
      ["still: imagemagick", "metadata: skipped/partial", "motion: none"] := by
  decide

/-- Claim C9 (amended): when metadata propagation returns not-ok the file's
summary records the step `metadata: skipped/partial` and no error entry for
it — its error list is exactly whatever the motion block contributes — so
the still path is not marked failed by a metadata failure. -/
theorem C9_metadata_not_ok_no_error (t : Tools) (file outDir base : String)
    (env : ProcEnv) :
    ∀ p m, env.conv = .ok p m → plausibleDimensions env.dimW env.dimH = true →
      (copyAllMetadata t.exiftool env.metaRun).ok = false →
      ("metadata: skipped/partial" ∈ (processOne t file outDir base false env).1.steps ∧
        (processOne t file outDir base false env).1.errors =
          (motionBlock t false (mp4PathFor outDir base) env).2) := by
  intro p m hc hpl hmeta
  unfold processOne
  simp [hc, hpl, hmeta]

/-- Witness for C9 (amended) at a concrete file whose metadata copy failed
and whose motion scan found nothing: the error list is empty. -/
theorem C9_metadata_not_ok_no_error_witness :
    "metadata: skipped/partial" ∈
      (processOne ⟨true, true, true, true, false, true⟩ "f.heic" "/out" "f" false
        ⟨.ok "/out/f.jpg" "imagemagick", 4032, 3024, ⟨1, "", "x"⟩,
          .fail "no_candidates", .fail "y" ""⟩).1.steps ∧
    (processOne ⟨true, true, true, true, false, true⟩ "f.heic" "/out" "f" false
        ⟨.ok "/out/f.jpg" "imagemagick", 4032, 3024, ⟨1, "", "x"⟩,
          .fail "no_candidates", .fail "y" ""⟩).1.errors =
      (motionBlock ⟨true, true, true, true, false, true⟩ false "/out/f.mp4"
        ⟨.ok "/out/f.jpg" "imagemagick", 4032, 3024, ⟨1, "", "x"⟩,
          .fail "no_candidates", .fail "y" ""⟩).2 :=
  C9_metadata_not_ok_no_error ⟨true, true, true, true, false, true⟩ "f.heic" "/out" "f"
    ⟨.ok "/out/f.jpg" "imagemagick", 4032, 3024, ⟨1, "", "x"⟩,
      .fail "no_candidates", .fail "y" ""⟩
    "/out/f.jpg" "imagemagick" rfl (by decide) (by decide)

-- ======================= Claim C10 =====================================

/-- The contribution of one top-level directory entry to a non-recursive
enumeration: a matching file's full path, nothing for subdirectories. -/
def topLevelHeic (root : String) : FsEntry → Option String
  | .file n => if isHeicName n then some (root ++ "/" ++ n) else none
  | .dir _ _ => none

theorem iterateFiles_nonrecursive (root : String) (tree : List FsEntry) :
    iterateFiles root false tree = tree.filterMap (topLevelHeic root) := by
  induction tree with
  | nil => simp [iterateFiles]
  | cons e rest ih =>
    cases e with
    | file n =>
      by_cases hn : isHeicName n = true <;>
        simp [iterateFiles, topLevelHeic, List.filterMap_cons, hn, ih]
    | dir n cs =>
      simp [iterateFiles, topLevelHeic, List.filterMap_cons, ih]

/-- Claim C10: the CLI parser accepts and records `--recursive`, but the
main loop calls `iterateFiles` with `recursive: false` hard-coded
(line 364), so the processed files are exactly the top-level matching files
of the source directory — files inside subdirectories are never processed —
and the processed list is the same for any two argument records with the
same source directory, whatever their `recursive` flags. -/
theorem C10_recursive_flag_ignored :
    (parseArgs (fun _ => none) ["node", "script.js", "/src", "/dst", "--recursive"] =
      .ok ⟨false, 95, true, false, "/src", "/dst"⟩) ∧
    (∀ (args : Args) (tree : List FsEntry),
      mainProcessedFiles args tree = tree.filterMap (topLevelHeic args.sourceDir)) ∧
    (∀ (a1 a2 : Args) (tree : List FsEntry), a1.sourceDir = a2.sourceDir →
      mainProcessedFiles a1 tree = mainProcessedFiles a2 tree) := by
  refine ⟨rfl, ?_, ?_⟩
  · intro args tree
    exact iterateFiles_nonrecursive args.sourceDir tree
  · intro a1 a2 tree h
    unfold mainProcessedFiles
    rw [h]

/-- Witness for C10: with `--recursive` recorded in the arguments, a nested
`y.heic` is still not processed; only the top-level `x.HEIC` is. -/
theorem C10_recursive_flag_ignored_witness :
    mainProcessedFiles ⟨false, 95, true, false, "/src", "/dst"⟩
      [.file "x.HEIC", .dir "d" [.file "y.heic"], .file "z.txt"] = ["/src/x.HEIC"] := by
  rw [C10_recursive_flag_ignored.2.1]
  decide

end HeicToJpg
